import Mathlib

/-!
Shallow embedding of the expense-approval workflow engine of this
repository (files app/models.py and app/routes.py).

Modelling conventions:
* each SQLAlchemy table (models.py) becomes a structure; a database
  snapshot is a `DB` holding one list per table in insertion order;
* primary keys are `Nat`; fresh ids are drawn from `DB.nextId`;
* `Model.query.get(pk)` becomes `List.find?` on the primary key;
  `Query.first()` becomes `List.head?` of the filtered list;
* the `ApprovalRule.steps` relationship carries
  `order_by="ApprovalStep.step_number"` (models.py line 72), so reading
  `rule.steps` is modelled as sorting the step rows by `step_number`;
* each route handler becomes a function `DB → args → DB × Except ApiErr Unit`:
  the first component is the committed database after the request (Flask-
  SQLAlchemy discards uncommitted `session.add` work when a handler
  returns before `db.session.commit()`), the second the HTTP outcome;
* `jsonify(msg), code` error returns become `ApiErr.http code msg`;
  an unhandled Python exception (e.g. attribute access on a dangling
  foreign key) becomes `ApiErr.internalError`; a commit rejected by the
  `UniqueConstraint('rule_id', 'step_number')` of models.py line 84
  becomes `ApiErr.integrityError`;
* `DateTime`/`Date` columns are abstracted to `Nat` tick counts;
  `Numeric(10,2)` amounts are abstracted to `Int` (the engine only
  stores and echoes them); the `created_at`/`updated_at` columns of
  `expense_approvals` are omitted (no claim mentions them).
-/

structure Company where
  id : Nat
  name : String
  default_currency : String
deriving Repr, DecidableEq

structure Users where
  id : Nat
  email : String
  role : String
  company_id : Nat
  manager_id : Option Nat
deriving Repr, DecidableEq

structure Expense where
  id : Nat
  employee_id : Nat
  category : String
  amount : Int
  currency : String
  description : Option String
  expense_date : Nat
  status : String
  created_at : Nat
deriving Repr, DecidableEq

structure ApprovalRule where
  id : Nat
  company_id : Nat
  name : String
  description : Option String
deriving Repr, DecidableEq

structure ApprovalStep where
  id : Nat
  rule_id : Nat
  step_number : Nat
  approver_role : String
  is_manager_approver : Bool
deriving Repr, DecidableEq

structure ExpenseApproval where
  id : Nat
  expense_id : Nat
  step_id : Nat
  approver_id : Option Nat
  status : String
  comments : Option String
deriving Repr, DecidableEq

structure DB where
  companies : List Company
  users : List Users
  expenses : List Expense
  rules : List ApprovalRule
  steps : List ApprovalStep
  approvals : List ExpenseApproval
  nextId : Nat
deriving Repr, DecidableEq

/-- Outcome of one request.  `http code msg` is a `jsonify(msg), code`
return; `internalError` an unhandled Python exception; `integrityError`
a commit rejected by a database unique constraint. -/
inductive ApiErr where
  | http (code : Nat) (msg : String)
  | internalError
  | integrityError
deriving Repr, DecidableEq

instance {ε α : Type} [DecidableEq ε] [DecidableEq α] : DecidableEq (Except ε α) := fun a b =>
  match a, b with
  | .ok x, .ok y =>
    if h : x = y then isTrue (by rw [h]) else isFalse (fun hh => h (Except.ok.inj hh))
  | .error e, .error f =>
    if h : e = f then isTrue (by rw [h]) else isFalse (fun hh => h (Except.error.inj hh))
  | .ok _, .error _ => isFalse nofun
  | .error _, .ok _ => isFalse nofun

/-- Primary-key lookup, `Users.query.get(uid)`. -/
def findUser (db : DB) (uid : Nat) : Option Users :=
  db.users.find? (fun u => u.id == uid)

/-- Primary-key lookup, `Company.query.get(cid)` (via the `user.company`
relationship). -/
def findCompany (db : DB) (cid : Nat) : Option Company :=
  db.companies.find? (fun c => c.id == cid)

/-- Primary-key lookup, `Expense.query.get(eid)` (via backrefs). -/
def findExpense (db : DB) (eid : Nat) : Option Expense :=
  db.expenses.find? (fun e => e.id == eid)

/-- Primary-key lookup, `ApprovalRule.query.get(rid)` (via `step.rule`). -/
def findRule (db : DB) (rid : Nat) : Option ApprovalRule :=
  db.rules.find? (fun r => r.id == rid)

/-- Primary-key lookup, `ApprovalStep.query.get(sid)` (via `approval.step`). -/
def findStep (db : DB) (sid : Nat) : Option ApprovalStep :=
  db.steps.find? (fun s => s.id == sid)

/-- Primary-key lookup, `ExpenseApproval.query.get_or_404(aid)`. -/
def findApproval (db : DB) (aid : Nat) : Option ExpenseApproval :=
  db.approvals.find? (fun a => a.id == aid)

/-- Ordering used by the `ApprovalRule.steps` relationship
(`order_by="ApprovalStep.step_number"`, models.py line 72). -/
def stepLE (a b : ApprovalStep) : Prop :=
  a.step_number ≤ b.step_number

instance : DecidableRel stepLE := fun a b => Nat.decLe a.step_number b.step_number

instance : IsTotal ApprovalStep stepLE := ⟨fun a b => Nat.le_total a.step_number b.step_number⟩

instance : IsTrans ApprovalStep stepLE := ⟨fun _ _ _ h h' => Nat.le_trans h h'⟩

/-- The `rule.steps` relationship: the step rows of the given rule,
ordered by `step_number`. -/
def ruleSteps (db : DB) (rid : Nat) : List ApprovalStep :=
  List.insertionSort stepLE (db.steps.filter (fun s => s.rule_id == rid))

/-- Row rewrite performed by mutating a loaded `ExpenseApproval` object
and committing: the row with the object's primary key takes the new
values. -/
def updateApprovalRow (l : List ExpenseApproval) (a : ExpenseApproval) : List ExpenseApproval :=
  l.map (fun x => if x.id = a.id then a else x)

/-- Row rewrite performed by `approval.expense.status = st` followed by a
commit: the expense row with the given primary key takes the new status. -/
def setExpenseStatus (l : List Expense) (eid : Nat) (st : String) : List Expense :=
  l.map (fun e => if e.id = eid then { e with status := st } else e)

/-- POST /expenses (routes.py lines 144-187, `submit_expense`).
The request body is abstracted to already-parsed arguments; the
`not data.get(...)` falsiness test keeps its observable effect on the
modelled fields (empty category or zero amount is "missing").  `now` is
the database clock that fills `created_at`. -/
def submit_expense (db : DB) (uid : Nat) (category : String) (amount : Int)
    (currency : Option String) (description : Option String)
    (expense_date : Nat) (now : Nat) : DB × Except ApiErr Unit :=
  match findUser db uid with
  | none => (db, .error .internalError)
  | some employee =>
    if category = "" ∨ amount = 0 then
      (db, .error (.http 400 "Missing required expense fields"))
    else
      match findCompany db employee.company_id with
      | none => (db, .error .internalError)
      | some company =>
        let new_expense : Expense :=
          { id := db.nextId
            employee_id := employee.id
            category := category
            amount := amount
            currency := currency.getD company.default_currency
            description := description
            expense_date := expense_date
            status := "Pending"
            created_at := now }
        match (db.rules.filter (fun r => r.company_id == employee.company_id)).head? with
        | none => (db, .error (.http 500 "No approval workflow is configured for this company"))
        | some rule =>
          match (ruleSteps db rule.id).head? with
          | none => (db, .error (.http 500 "No approval workflow is configured for this company"))
          | some first_step =>
            let initial_approval : ExpenseApproval :=
              { id := db.nextId + 1
                expense_id := new_expense.id
                step_id := first_step.id
                approver_id := none
                status := "Pending"
                comments := none }
            ({ db with
                expenses := db.expenses ++ [new_expense]
                approvals := db.approvals ++ [initial_approval]
                nextId := db.nextId + 2 }, .ok ())

/-- POST /approval-rules (routes.py lines 192-226, `create_approval_rule`).
`steps_data` carries the `(step_number, approver_role)` of each entry of
`data['steps']`.  The commit is accepted only if the resulting
`approval_steps` table satisfies `UniqueConstraint('rule_id',
'step_number')` (models.py line 84); otherwise the database raises and
nothing persists. -/
def create_approval_rule (db : DB) (uid : Nat) (name : String)
    (description : Option String) (steps_data : List (Nat × String)) :
    DB × Except ApiErr Unit :=
  match findUser db uid with
  | none => (db, .error .internalError)
  | some admin_user =>
    if admin_user.role ≠ "Admin" then
      (db, .error (.http 403 "Admin access required"))
    else if name = "" ∨ steps_data.isEmpty then
      (db, .error (.http 400 "Missing rule name or steps"))
    else
      let new_rule : ApprovalRule :=
        { id := db.nextId
          company_id := admin_user.company_id
          name := name
          description := description }
      let new_steps : List ApprovalStep :=
        steps_data.enum.map (fun p =>
          { id := db.nextId + 1 + p.1
            rule_id := new_rule.id
            step_number := p.2.1
            approver_role := p.2.2
            is_manager_approver := false })
      let all_pairs : List (Nat × Nat) :=
        (db.steps ++ new_steps).map (fun s => (s.rule_id, s.step_number))
      if all_pairs.Nodup then
        ({ db with
            rules := db.rules ++ [new_rule]
            steps := db.steps ++ new_steps
            nextId := db.nextId + 1 + steps_data.length }, .ok ())
      else
        (db, .error .integrityError)

/-- POST /approvals/(id)/approve (routes.py lines 270-309,
`approve_expense`). -/
def approve_expense (db : DB) (uid : Nat) (approval_id : Nat)
    (comments : Option String) : DB × Except ApiErr Unit :=
  match findUser db uid with
  | none => (db, .error (.http 404 "Not Found"))
  | some approver =>
    match findApproval db approval_id with
    | none => (db, .error (.http 404 "Not Found"))
    | some approval =>
      match findStep db approval.step_id with
      | none => (db, .error .internalError)
      | some current_step =>
        if approver.role ≠ current_step.approver_role then
          (db, .error (.http 403
            ("This expense requires approval from the " ++ current_step.approver_role)))
        else
          let approval_upd : ExpenseApproval :=
            { approval with
                status := "Approved"
                approver_id := some approver.id
                comments := comments }
          match findRule db current_step.rule_id with
          | none => (db, .error .internalError)
          | some rule =>
            match (db.steps.filter (fun s =>
                s.rule_id == rule.id && s.step_number == current_step.step_number + 1)).head? with
            | some next_step =>
              let new_approval : ExpenseApproval :=
                { id := db.nextId
                  expense_id := approval.expense_id
                  step_id := next_step.id
                  approver_id := none
                  status := "Pending"
                  comments := none }
              ({ db with
                  approvals := updateApprovalRow db.approvals approval_upd ++ [new_approval]
                  nextId := db.nextId + 1 }, .ok ())
            | none =>
              ({ db with
                  approvals := updateApprovalRow db.approvals approval_upd
                  expenses := setExpenseStatus db.expenses approval.expense_id "Approved" },
               .ok ())

/-- POST /approvals/(id)/reject (routes.py lines 312-333,
`reject_expense`). -/
def reject_expense (db : DB) (uid : Nat) (approval_id : Nat)
    (comments : Option String) : DB × Except ApiErr Unit :=
  match findUser db uid with
  | none => (db, .error (.http 404 "Not Found"))
  | some approver =>
    match findApproval db approval_id with
    | none => (db, .error (.http 404 "Not Found"))
    | some approval =>
      match findStep db approval.step_id with
      | none => (db, .error .internalError)
      | some current_step =>
        if approver.role ≠ current_step.approver_role then
          (db, .error (.http 403 "You are not authorized to reject this expense"))
        else
          let approval_upd : ExpenseApproval :=
            { approval with
                status := "Rejected"
                approver_id := some approver.id
                comments := comments }
          ({ db with
              approvals := updateApprovalRow db.approvals approval_upd
              expenses := setExpenseStatus db.expenses approval.expense_id "Rejected" },
           .ok ())

/-- The query of GET /approvals/pending (routes.py lines 240-243): inner
join of `expense_approvals` with `approval_steps` on the `step`
relationship, filtered on the approver role and the `Pending` status.
There is no company filter in the query. -/
def pending_approvals_query (db : DB) (role : String) : List ExpenseApproval :=
  db.approvals.filter (fun a => a.status == "Pending" &&
    (match findStep db a.step_id with
     | some s => s.approver_role == role
     | none => false))

/-- One row of the GET /approvals/pending response (routes.py lines
252-262).  Fields obtained through `approval.expense` and
`Users.query.get` are `Option`-valued: `none` marks an attribute access
that would raise in Python (impossible under the foreign-key
constraints). -/
structure PendingRow where
  approval_id : Nat
  expense_id : Nat
  employee_name : Option String
  category : Option String
  amount : Option Int
  currency : Option String
  description : Option (Option String)
  expense_date : Option Nat
  submitted_at : Option Nat
deriving Repr, DecidableEq

/-- GET /approvals/pending (routes.py lines 230-264,
`get_pending_approvals`).  The handler's first `for` loop only resets
`results` to `[]`; the response is built by the second loop, i.e. it is
the formatted image of every row of `pending_approvals_query`. -/
def get_pending_approvals (db : DB) (uid : Nat) : List PendingRow :=
  match findUser db uid with
  | none => []
  | some approver =>
    (pending_approvals_query db approver.role).map (fun a =>
      let e? := findExpense db a.expense_id
      { approval_id := a.id
        expense_id := a.expense_id
        employee_name := e?.bind (fun e => (findUser db e.employee_id).map (fun u => u.email))
        category := e?.map (fun e => e.category)
        amount := e?.map (fun e => e.amount)
        currency := e?.map (fun e => e.currency)
        description := e?.map (fun e => e.description)
        expense_date := e?.map (fun e => e.expense_date)
        submitted_at := e?.map (fun e => e.created_at) })

/-- The `Pending` approval rows of one expense,
`ExpenseApproval.query.filter_by(expense_id=eid, status='Pending')`. -/
def pendingFor (db : DB) (eid : Nat) : List ExpenseApproval :=
  db.approvals.filter (fun a => a.expense_id == eid && a.status == "Pending")

/-- Status string shown by the history endpoints (routes.py lines
342-348): while the expense is `Pending`, the first `Pending` approval
row's step names the awaited role; otherwise the raw status. -/
def statusDisplay (db : DB) (e : Expense) : String :=
  if e.status = "Pending" then
    match (pendingFor db e.id).head? with
    | some pending_approval =>
      match findStep db pending_approval.step_id with
      | some s => "Pending " ++ s.approver_role ++ " Approval"
      | none => e.status
    | none => e.status
  else
    e.status

/-- Ordering of GET /expenses/my-history:
`order_by(Expense.created_at.desc())`. -/
def newestFirst (a b : Expense) : Prop :=
  b.created_at ≤ a.created_at

instance : DecidableRel newestFirst := fun a b => Nat.decLe b.created_at a.created_at

instance : IsTotal Expense newestFirst := ⟨fun a b => (Nat.le_total b.created_at a.created_at)⟩

instance : IsTrans Expense newestFirst := ⟨fun _ _ _ h h' => Nat.le_trans h' h⟩

/-- One row of the GET /expenses/my-history response. -/
structure HistoryRow where
  expense_id : Nat
  category : String
  amount : Int
  currency : String
  status : String
  submitted_at : Nat
deriving Repr, DecidableEq

/-- GET /expenses/my-history (routes.py lines 335-359,
`get_my_expense_history`). -/
def get_my_expense_history (db : DB) (uid : Nat) : List HistoryRow :=
  let expenses := List.insertionSort newestFirst
    (db.expenses.filter (fun e => e.employee_id == uid))
  expenses.map (fun e =>
    { expense_id := e.id
      category := e.category
      amount := e.amount
      currency := e.currency
      status := statusDisplay db e
      submitted_at := e.created_at })

/-- Sample database: one company, an admin, a manager, a finance user and
an employee; a two-step workflow (step 1 Manager, step 2 Finance); one
freshly submitted expense with its initial `Pending` approval row. -/
def dbOne : DB :=
  { companies := [⟨1, "Acme", "USD"⟩]
    users := [⟨2, "admin", "Admin", 1, none⟩, ⟨3, "mgr", "Manager", 1, none⟩,
              ⟨4, "fin", "Finance", 1, none⟩, ⟨5, "emp", "Employee", 1, some 3⟩]
    expenses := [⟨9, 5, "Travel", 100, "USD", none, 20, "Pending", 30⟩]
    rules := [⟨6, 1, "Default flow", none⟩]
    steps := [⟨7, 6, 1, "Manager", false⟩, ⟨8, 6, 2, "Finance", false⟩]
    approvals := [⟨10, 9, 7, none, "Pending", none⟩]
    nextId := 11 }

/-- `dbOne` after the manager approved the step-1 approval row: row 10 is
terminal and a `Pending` row 11 exists at step 2. -/
def dbTwo : DB :=
  { companies := [⟨1, "Acme", "USD"⟩]
    users := [⟨2, "admin", "Admin", 1, none⟩, ⟨3, "mgr", "Manager", 1, none⟩,
              ⟨4, "fin", "Finance", 1, none⟩, ⟨5, "emp", "Employee", 1, some 3⟩]
    expenses := [⟨9, 5, "Travel", 100, "USD", none, 20, "Pending", 30⟩]
    rules := [⟨6, 1, "Default flow", none⟩]
    steps := [⟨7, 6, 1, "Manager", false⟩, ⟨8, 6, 2, "Finance", false⟩]
    approvals := [⟨10, 9, 7, some 3, "Approved", none⟩, ⟨11, 9, 8, none, "Pending", none⟩]
    nextId := 12 }

/-- Sample database whose only workflow step is numbered 2: the step
numbering of the first (and only) definition does not start at 1. -/
def dbGap : DB :=
  { companies := [⟨1, "Acme", "USD"⟩]
    users := [⟨2, "admin", "Admin", 1, none⟩, ⟨5, "emp", "Employee", 1, none⟩]
    expenses := []
    rules := [⟨6, 1, "Default flow", none⟩]
    steps := [⟨7, 6, 2, "Manager", false⟩]
    approvals := []
    nextId := 11 }

/-- Sample database whose company has no workflow definition at all. -/
def dbNoRule : DB :=
  { companies := [⟨1, "Acme", "USD"⟩]
    users := [⟨2, "admin", "Admin", 1, none⟩, ⟨5, "emp", "Employee", 1, none⟩]
    expenses := []
    rules := []
    steps := []
    approvals := []
    nextId := 11 }

/-- Sample database with two companies: the manager (user 3) belongs to
company 1 while the pending approval row 10 belongs to an expense of an
employee of company 2. -/
def dbCross : DB :=
  { companies := [⟨1, "Acme", "USD"⟩, ⟨2, "Globex", "EUR"⟩]
    users := [⟨3, "mgr", "Manager", 1, none⟩, ⟨5, "emp", "Employee", 2, none⟩]
    expenses := [⟨9, 5, "Travel", 100, "EUR", none, 20, "Pending", 30⟩]
    rules := [⟨6, 2, "Globex flow", none⟩]
    steps := [⟨7, 6, 1, "Manager", false⟩]
    approvals := [⟨10, 9, 7, none, "Pending", none⟩]
    nextId := 11 }

/-- The `Pending` approval rows of the expense with primary key `eid`,
counted.  The key invariant speaks about this number. -/
def pendingCount (db : DB) (eid : Nat) : Nat :=
  (pendingFor db eid).length

/-- The at-most-one-active-step invariant: while an expense is `Pending`,
exactly one of its approval rows is `Pending`. -/
def invariantHolds (db : DB) : Prop :=
  ∀ e ∈ db.expenses, e.status = "Pending" → pendingCount db e.id = 1

instance (db : DB) : Decidable (invariantHolds db) := by
  unfold invariantHolds; infer_instance

/-- Status of the expense row with the given primary key. -/
def statusOfExpense (db : DB) (eid : Nat) : Option String :=
  (findExpense db eid).map (fun e => e.status)

/-- Schema-level constraints that the relational store enforces: primary
keys are unique and below the id counter, foreign keys resolve, and the
`(rule_id, step_number)` pairs of `approval_steps` are unique
(models.py line 84). -/
structure WF (db : DB) : Prop where
  expenses_lt : ∀ e ∈ db.expenses, e.id < db.nextId
  approvals_lt : ∀ a ∈ db.approvals, a.id < db.nextId
  steps_lt : ∀ s ∈ db.steps, s.id < db.nextId
  rules_lt : ∀ r ∈ db.rules, r.id < db.nextId
  expenses_nodup : (db.expenses.map Expense.id).Nodup
  approvals_nodup : (db.approvals.map ExpenseApproval.id).Nodup
  steps_nodup : (db.steps.map ApprovalStep.id).Nodup
  step_pairs_nodup : (db.steps.map (fun s => (s.rule_id, s.step_number))).Nodup
  approvals_exp_fk : ∀ a ∈ db.approvals, ∃ e ∈ db.expenses, e.id = a.expense_id
  approvals_step_fk : ∀ a ∈ db.approvals, ∃ s ∈ db.steps, s.id = a.step_id
  steps_rule_fk : ∀ s ∈ db.steps, ∃ r ∈ db.rules, r.id = s.rule_id

theorem filter_map_congr_length {α : Type} (l : List α) (g : α → α) (p : α → Bool)
    (h : ∀ x ∈ l, p (g x) = p x) :
    ((l.map g).filter p).length = (l.filter p).length := by
  induction l with
  | nil => rfl
  | cons x xs ih =>
    have hx := h x (List.mem_cons_self x xs)
    have ih' := ih (fun y hy => h y (List.mem_cons_of_mem x hy))
    simp only [List.map_cons, List.filter_cons, hx]
    cases hpx : p x <;> simp [ih']

theorem filter_map_eq_nil {α : Type} (l : List α) (g : α → α) (p : α → Bool)
    (h : ∀ x ∈ l, p (g x) = false) : (l.map g).filter p = [] := by
  rw [List.filter_eq_nil_iff]
  intro b hb
  obtain ⟨x, hx, rfl⟩ := List.mem_map.mp hb
  simp [h x hx]

theorem unique_of_filter_length_one {α : Type} {l : List α} {p : α → Bool} {a : α}
    (hlen : (l.filter p).length = 1) (ha : a ∈ l) (hpa : p a = true) :
    ∀ x ∈ l, p x = true → x = a := by
  obtain ⟨b, hb⟩ := List.length_eq_one.mp hlen
  have haf : a ∈ l.filter p := List.mem_filter.mpr ⟨ha, hpa⟩
  rw [hb] at haf
  have hab : a = b := by simpa using haf
  intro x hx hpx
  have hxf : x ∈ l.filter p := List.mem_filter.mpr ⟨hx, hpx⟩
  rw [hb] at hxf
  have : x = b := by simpa using hxf
  rw [this, hab]

theorem nodup_key_inj {α β : Type} {f : α → β} {l : List α}
    (h : (l.map f).Nodup) {x y : α} (hx : x ∈ l) (hy : y ∈ l) (hxy : f x = f y) : x = y :=
  List.inj_on_of_nodup_map h hx hy hxy

theorem find?_key_eq_some {α : Type} {l : List α} {f : α → Nat} {k : Nat} {e : α}
    (hnd : (l.map f).Nodup) (he : e ∈ l) (hk : f e = k) :
    l.find? (fun x => f x == k) = some e := by
  cases hf : l.find? (fun x => f x == k) with
  | none =>
    exfalso
    have : ∃ x ∈ l, (fun x => f x == k) x = true := ⟨e, he, by simp [hk]⟩
    rw [← List.find?_isSome, hf] at this
    cases this
  | some e0 =>
    have h0 := List.find?_some hf
    have hmem0 := List.mem_of_find?_eq_some hf
    have : e0 = e := nodup_key_inj hnd hmem0 he (by
      have : f e0 = k := by simpa using h0
      rw [this, hk])
    rw [this]

theorem find?_map_comm {α : Type} (l : List α) (g : α → α) (q : α → Bool)
    (h : ∀ x, q (g x) = q x) : (l.map g).find? q = (l.find? q).map g := by
  induction l with
  | nil => rfl
  | cons x xs ih =>
    simp only [List.map_cons, List.find?_cons, h x]
    cases q x <;> simp [ih]

theorem head?_filter_of_unique {α : Type} {l : List α} {p : α → Bool} {s : α}
    (hs : s ∈ l) (hps : p s = true) (huniq : ∀ x ∈ l, p x = true → x = s) :
    (l.filter p).head? = some s := by
  have hmem : s ∈ l.filter p := List.mem_filter.mpr ⟨hs, hps⟩
  cases hf : l.filter p with
  | nil => rw [hf] at hmem; cases hmem
  | cons b bs =>
    have hb : b ∈ l.filter p := by rw [hf]; exact List.mem_cons_self b bs
    have hbl := List.mem_filter.mp hb
    have := huniq b hbl.1 hbl.2
    simp [this]

theorem find?_set_status {l : List Expense} {eid : Nat} (stv : String) {e : Expense}
    (hnd : (l.map Expense.id).Nodup) (he : e ∈ l) (hk : e.id = eid) :
    ((setExpenseStatus l eid stv).find? (fun x => x.id == eid)).map (fun x => x.status) =
      some stv := by
  unfold setExpenseStatus
  rw [find?_map_comm]
  · rw [show l.find? (fun x => x.id == eid) = some e from find?_key_eq_some hnd he hk]
    simp [hk]
  · intro x
    by_cases hx : x.id = eid <;> simp [hx]

theorem reject_reduces (db : DB) (uid aid : Nat) (c : Option String)
    (u : Users) (a : ExpenseApproval) (st : ApprovalStep)
    (hU : findUser db uid = some u)
    (hA : findApproval db aid = some a)
    (hS : findStep db a.step_id = some st)
    (hRole : u.role = st.approver_role) :
    reject_expense db uid aid c =
      ({ db with
          approvals := updateApprovalRow db.approvals
            { a with status := "Rejected", approver_id := some u.id, comments := c }
          expenses := setExpenseStatus db.expenses a.expense_id "Rejected" }, .ok ()) := by
  simp [reject_expense, hU, hA, hS, hRole]

/-- C4: an authorized rejection of a `Pending` approval row marks that
row `Rejected` with the approver and comment recorded, sets the whole
expense `Rejected`, and creates no new approval row. -/
theorem C4_reject_rejects_expense_and_creates_nothing
    (db : DB) (uid aid : Nat) (c : Option String)
    (u : Users) (a : ExpenseApproval) (st : ApprovalStep)
    (w : WF db)
    (hU : findUser db uid = some u)
    (hA : findApproval db aid = some a)
    (hS : findStep db a.step_id = some st)
    (hPend : a.status = "Pending")
    (hRole : u.role = st.approver_role) :
    (reject_expense db uid aid c).2 = .ok () ∧
    findApproval (reject_expense db uid aid c).1 aid =
      some { a with status := "Rejected", approver_id := some u.id, comments := c } ∧
    statusOfExpense (reject_expense db uid aid c).1 a.expense_id = some "Rejected" ∧
    ((reject_expense db uid aid c).1).approvals.length = db.approvals.length := by
  have hred := reject_reduces db uid aid c u a st hU hA hS hRole
  have haid : a.id = aid := by
    have := List.find?_some hA
    simpa using this
  refine ⟨by rw [hred], ?_, ?_, ?_⟩
  · rw [hred]
    unfold findApproval updateApprovalRow
    rw [find?_map_comm]
    · rw [show (db.approvals.find? (fun x => x.id == aid)) = findApproval db aid from rfl, hA]
      simp
    · intro x
      by_cases hx : x.id = aid <;> simp [hx, haid]
  · rw [hred]
    obtain ⟨e, he, heid⟩ := w.approvals_exp_fk a (List.mem_of_find?_eq_some hA)
    exact find?_set_status "Rejected" w.expenses_nodup he heid
  · rw [hred]
    simp [updateApprovalRow]

theorem C4_witness :
    (reject_expense dbTwo 4 11 (some "no")).2 = .ok () ∧
    findApproval (reject_expense dbTwo 4 11 (some "no")).1 11 =
      some ⟨11, 9, 8, some 4, "Rejected", some "no"⟩ ∧
    statusOfExpense (reject_expense dbTwo 4 11 (some "no")).1 9 = some "Rejected" ∧
    ((reject_expense dbTwo 4 11 (some "no")).1).approvals.length = dbTwo.approvals.length :=
  C4_reject_rejects_expense_and_creates_nothing dbTwo 4 11 (some "no")
    ⟨4, "fin", "Finance", 1, none⟩ ⟨11, 9, 8, none, "Pending", none⟩
    ⟨8, 6, 2, "Finance", false⟩
    (by constructor <;> decide) (by decide) (by decide) (by decide) (by decide) (by decide)

theorem approve_reduces_next (db : DB) (uid aid : Nat) (c : Option String)
    (u : Users) (a : ExpenseApproval) (st : ApprovalStep) (r : ApprovalRule)
    (ns : ApprovalStep)
    (hU : findUser db uid = some u)
    (hA : findApproval db aid = some a)
    (hS : findStep db a.step_id = some st)
    (hRole : u.role = st.approver_role)
    (hR : findRule db st.rule_id = some r)
    (hns : (db.steps.filter (fun s =>
      s.rule_id == r.id && s.step_number == st.step_number + 1)).head? = some ns) :
    approve_expense db uid aid c =
      ({ db with
          approvals := updateApprovalRow db.approvals
              { a with status := "Approved", approver_id := some u.id, comments := c }
            ++ [⟨db.nextId, a.expense_id, ns.id, none, "Pending", none⟩]
          nextId := db.nextId + 1 }, .ok ()) := by
  simp [approve_expense, hU, hA, hS, hRole, hR, hns]

theorem approve_reduces_last (db : DB) (uid aid : Nat) (c : Option String)
    (u : Users) (a : ExpenseApproval) (st : ApprovalStep) (r : ApprovalRule)
    (hU : findUser db uid = some u)
    (hA : findApproval db aid = some a)
    (hS : findStep db a.step_id = some st)
    (hRole : u.role = st.approver_role)
    (hR : findRule db st.rule_id = some r)
    (hns : (db.steps.filter (fun s =>
      s.rule_id == r.id && s.step_number == st.step_number + 1)).head? = none) :
    approve_expense db uid aid c =
      ({ db with
          approvals := updateApprovalRow db.approvals
            { a with status := "Approved", approver_id := some u.id, comments := c }
          expenses := setExpenseStatus db.expenses a.expense_id "Approved" }, .ok ()) := by
  simp [approve_expense, hU, hA, hS, hRole, hR, hns]

/-- The `Pending` approval rows of expense `eid` sitting at step `sid`,
counted. -/
def pendingAtStep (db : DB) (eid sid : Nat) : Nat :=
  (db.approvals.filter (fun x =>
    x.expense_id == eid && x.step_id == sid && x.status == "Pending")).length

/-- C3: an authorized approval of a `Pending` approval row either
advances the chain — when the same definition has a step numbered one
higher, exactly one new `Pending` row is created at that step and the
expense rows (hence the expense's overall `Pending` status) are
untouched — or, when no such step exists, finalizes the expense as
`Approved` without creating any row. -/
theorem C3_approve_advances_or_finalizes
    (db : DB) (uid aid : Nat) (c : Option String)
    (u : Users) (a : ExpenseApproval) (st : ApprovalStep) (r : ApprovalRule)
    (w : WF db)
    (hU : findUser db uid = some u)
    (hA : findApproval db aid = some a)
    (hS : findStep db a.step_id = some st)
    (hPend : a.status = "Pending")
    (hRole : u.role = st.approver_role)
    (hR : findRule db st.rule_id = some r) :
    (∀ ns ∈ db.steps, ns.rule_id = st.rule_id → ns.step_number = st.step_number + 1 →
      (approve_expense db uid aid c).2 = .ok () ∧
      ((approve_expense db uid aid c).1).expenses = db.expenses ∧
      ((approve_expense db uid aid c).1).approvals.length = db.approvals.length + 1 ∧
      pendingAtStep (approve_expense db uid aid c).1 a.expense_id ns.id =
        pendingAtStep db a.expense_id ns.id + 1) ∧
    ((∀ s ∈ db.steps, s.rule_id = st.rule_id → s.step_number ≠ st.step_number + 1) →
      (approve_expense db uid aid c).2 = .ok () ∧
      ((approve_expense db uid aid c).1).approvals.length = db.approvals.length ∧
      statusOfExpense (approve_expense db uid aid c).1 a.expense_id = some "Approved") := by
  have hrid : r.id = st.rule_id := by
    have := List.find?_some hR
    simpa using this
  have hstid : st.id = a.step_id := by
    have := List.find?_some hS
    simpa using this
  have hstmem : st ∈ db.steps := List.mem_of_find?_eq_some hS
  have hamem : a ∈ db.approvals := List.mem_of_find?_eq_some hA
  constructor
  · intro ns hnsmem hnsrid hnsnum
    have hpns : (ns.rule_id == r.id && ns.step_number == st.step_number + 1) = true := by
      simp [hnsrid, hrid, hnsnum]
    have huniq : ∀ x ∈ db.steps,
        (x.rule_id == r.id && x.step_number == st.step_number + 1) = true → x = ns := by
      intro x hx hpx
      simp only [Bool.and_eq_true, beq_iff_eq] at hpx
      refine nodup_key_inj w.step_pairs_nodup hx hnsmem ?_
      rw [Prod.ext_iff]
      exact ⟨by rw [hpx.1, hrid, ← hnsrid], by rw [hpx.2, hnsnum]⟩
    have hns : (db.steps.filter (fun s =>
        s.rule_id == r.id && s.step_number == st.step_number + 1)).head? = some ns :=
      head?_filter_of_unique hnsmem hpns huniq
    have hred := approve_reduces_next db uid aid c u a st r ns hU hA hS hRole hR hns
    have hstne : st.id ≠ ns.id := by
      intro h
      have hstns : st = ns := nodup_key_inj w.steps_nodup hstmem hnsmem h
      rw [← hstns] at hnsnum
      omega
    refine ⟨by rw [hred], by rw [hred], ?_, ?_⟩
    · rw [hred]
      simp [updateApprovalRow]
    · rw [hred]
      unfold pendingAtStep
      simp only [List.filter_append, List.length_append]
      have hq : ∀ x ∈ db.approvals,
          ((fun x => x.expense_id == a.expense_id && x.step_id == ns.id &&
            x.status == "Pending")
            (if x.id = a.id then
              { a with status := "Approved", approver_id := some u.id, comments := c }
             else x)) =
          (x.expense_id == a.expense_id && x.step_id == ns.id && x.status == "Pending") := by
        intro x hx
        by_cases hxid : x.id = a.id
        · have hxa : x = a := nodup_key_inj w.approvals_nodup hx hamem hxid
          have hane : (a.step_id == ns.id) = false := by
            simp only [beq_eq_false_iff_ne, ne_eq, ← hstid]
            exact hstne
          simp [hxid, hxa, hane]
        · simp [hxid]
      have hcongr := filter_map_congr_length db.approvals
        (fun x => if x.id = a.id then
          { a with status := "Approved", approver_id := some u.id, comments := c } else x)
        (fun x => x.expense_id == a.expense_id && x.step_id == ns.id && x.status == "Pending")
        hq
      unfold updateApprovalRow
      rw [hcongr]
      simp
  · intro hno
    have hfil : db.steps.filter (fun s =>
        s.rule_id == r.id && s.step_number == st.step_number + 1) = [] := by
      rw [List.filter_eq_nil_iff]
      intro s hs
      simp only [Bool.and_eq_true, beq_iff_eq, not_and]
      intro hsr
      exact hno s hs (by rw [hsr, hrid])
    have hns : (db.steps.filter (fun s =>
        s.rule_id == r.id && s.step_number == st.step_number + 1)).head? = none := by
      rw [hfil]
      rfl
    have hred := approve_reduces_last db uid aid c u a st r hU hA hS hRole hR hns
    refine ⟨by rw [hred], by rw [hred]; simp [updateApprovalRow], ?_⟩
    rw [hred]
    obtain ⟨e, he, heid⟩ := w.approvals_exp_fk a hamem
    exact find?_set_status "Approved" w.expenses_nodup he heid

theorem C3_witness :
    ((approve_expense dbOne 3 10 none).2 = .ok () ∧
     ((approve_expense dbOne 3 10 none).1).expenses = dbOne.expenses ∧
     pendingAtStep (approve_expense dbOne 3 10 none).1 9 8 = pendingAtStep dbOne 9 8 + 1) ∧
    ((approve_expense dbTwo 4 11 none).2 = .ok () ∧
     statusOfExpense (approve_expense dbTwo 4 11 none).1 9 = some "Approved") := by
  constructor
  · have h := (C3_approve_advances_or_finalizes dbOne 3 10 none
      ⟨3, "mgr", "Manager", 1, none⟩ ⟨10, 9, 7, none, "Pending", none⟩
      ⟨7, 6, 1, "Manager", false⟩ ⟨6, 1, "Default flow", none⟩
      (by constructor <;> decide) (by decide) (by decide) (by decide) (by decide)
      (by decide) (by decide)).1
      ⟨8, 6, 2, "Finance", false⟩ (by decide) (by decide) (by decide)
    exact ⟨h.1, h.2.1, h.2.2.2⟩
  · have h := (C3_approve_advances_or_finalizes dbTwo 4 11 none
      ⟨4, "fin", "Finance", 1, none⟩ ⟨11, 9, 8, none, "Pending", none⟩
      ⟨8, 6, 2, "Finance", false⟩ ⟨6, 1, "Default flow", none⟩
      (by constructor <;> decide) (by decide) (by decide) (by decide) (by decide)
      (by decide) (by decide)).2 (by decide)
    exact ⟨h.1, h.2.2⟩

/-- C5 (amended): a role mismatch makes both decide endpoints fail with
the 403 Unauthorized response before any state change; the approve
message embeds the required role, while the reject message is a fixed
generic string. -/
theorem C5_role_mismatch_unauthorized
    (db : DB) (uid aid : Nat) (c : Option String)
    (u : Users) (a : ExpenseApproval) (st : ApprovalStep)
    (hU : findUser db uid = some u)
    (hA : findApproval db aid = some a)
    (hS : findStep db a.step_id = some st)
    (hne : u.role ≠ st.approver_role) :
    approve_expense db uid aid c =
      (db, .error (.http 403
        ("This expense requires approval from the " ++ st.approver_role))) ∧
    reject_expense db uid aid c =
      (db, .error (.http 403 "You are not authorized to reject this expense")) ∧
    List.IsInfix st.approver_role.data
      ("This expense requires approval from the " ++ st.approver_role).data := by
  refine ⟨?_, ?_, ?_⟩
  · simp [approve_expense, hU, hA, hS, hne]
  · simp [reject_expense, hU, hA, hS, hne]
  · exact ⟨"This expense requires approval from the ".data, [], by simp⟩

theorem C5_witness :
    approve_expense dbOne 4 10 none =
      (dbOne, .error (.http 403 ("This expense requires approval from the " ++ "Manager"))) ∧
    reject_expense dbOne 4 10 none =
      (dbOne, .error (.http 403 "You are not authorized to reject this expense")) := by
  have h := C5_role_mismatch_unauthorized dbOne 4 10 none
    ⟨4, "fin", "Finance", 1, none⟩ ⟨10, 9, 7, none, "Pending", none⟩
    ⟨7, 6, 1, "Manager", false⟩ (by decide) (by decide) (by decide) (by decide)
  exact ⟨h.1, h.2.1⟩

/-- C5 counterexample: user 4 ("Finance") tries to reject approval row
10, whose step requires the "Manager" role.  The call does fail with 403
and no state change, but its message is the fixed string
"You are not authorized to reject this expense", which does not carry
the required role — refuting the part of the claim that says both
decide errors carry the required role. -/
theorem C5_counterexample :
    reject_expense dbOne 4 10 none =
      (dbOne, .error (.http 403 "You are not authorized to reject this expense")) ∧
    ¬ List.IsInfix "Manager".data
      "You are not authorized to reject this expense".data := by
  constructor
  · decide
  · decide

/-- C2 (code-bug evidence): in `dbTwo` the approval row 10 is already in
the terminal state `Approved`, yet the approve endpoint invoked by the
authorized manager succeeds again (`.ok`), re-processing the row and
leaving the still-`Pending` expense 9 with two `Pending` approval rows
instead of failing with an InvalidStateError and changing nothing. -/
theorem C2_terminal_decide_not_guarded :
    (findApproval dbTwo 10).map (fun a => a.status) = some "Approved" ∧
    (approve_expense dbTwo 3 10 none).2 = .ok () ∧
    statusOfExpense (approve_expense dbTwo 3 10 none).1 9 = some "Pending" ∧
    pendingCount dbTwo 9 = 1 ∧
    pendingCount (approve_expense dbTwo 3 10 none).1 9 = 2 := by
  refine ⟨by decide, by decide, by decide, by decide, by decide⟩

/-- C1 counterexample: `dbTwo` — a state the code itself reaches after
submission and one authorized approval — satisfies the invariant, but
one further approve call on the already-terminal row 10 (which the code
accepts) yields a state where expense 9 is still `Pending` with two
`Pending` approval rows, so the invariant is not preserved by every
approve decision. -/
theorem C1_counterexample :
    invariantHolds dbTwo ∧
    (approve_expense dbTwo 3 10 none).2 = .ok () ∧
    ¬ invariantHolds (approve_expense dbTwo 3 10 none).1 := by
  refine ⟨by decide, by decide, by decide⟩

theorem invariantHolds_update_append
    (db : DB) (w : WF db) (hinv : invariantHolds db)
    (a a_upd newA : ExpenseApproval) (nid : Nat)
    (ha : a ∈ db.approvals) (hPend : a.status = "Pending")
    (hidu : a_upd.id = a.id) (hexpu : a_upd.expense_id = a.expense_id)
    (hstatu : (a_upd.status == "Pending") = false)
    (hnexp : newA.expense_id = a.expense_id)
    (hnpend : newA.status = "Pending") :
    invariantHolds { db with
      approvals := updateApprovalRow db.approvals a_upd ++ [newA], nextId := nid } := by
  intro e he hst
  have he' : e ∈ db.expenses := he
  show (((updateApprovalRow db.approvals a_upd) ++ [newA]).filter
    (fun x => x.expense_id == e.id && x.status == "Pending")).length = 1
  rw [List.filter_append, List.length_append]
  by_cases heq : e.id = a.expense_id
  · have hcount : (db.approvals.filter
        (fun x => x.expense_id == e.id && x.status == "Pending")).length = 1 :=
      hinv e he' hst
    have hpa : (fun x => x.expense_id == e.id && x.status == "Pending") a = true := by
      simp [heq, hPend]
    have huniq := unique_of_filter_length_one hcount ha hpa
    have h1 : ((updateApprovalRow db.approvals a_upd).filter
        (fun x => x.expense_id == e.id && x.status == "Pending")) = [] := by
      apply filter_map_eq_nil
      intro x hx
      by_cases hxid : x.id = a_upd.id
      · rw [if_pos hxid]
        simp [hstatu]
      · rw [if_neg hxid]
        by_cases hpx : (x.expense_id == e.id && x.status == "Pending") = true
        · exact absurd (by rw [huniq x hx hpx, ← hidu]) hxid
        · simpa using hpx
    have h2 : ([newA].filter (fun x => x.expense_id == e.id && x.status == "Pending")) =
        [newA] := by
      simp [hnexp, heq, hnpend]
    rw [h1, h2]
    rfl
  · have hcount := hinv e he' hst
    have hq : ∀ x ∈ db.approvals,
        ((fun x => x.expense_id == e.id && x.status == "Pending")
          (if x.id = a_upd.id then a_upd else x)) =
        (x.expense_id == e.id && x.status == "Pending") := by
      intro x hx
      by_cases hxid : x.id = a_upd.id
      · have hxa : x = a := nodup_key_inj w.approvals_nodup hx ha (by rw [← hidu]; exact hxid)
        rw [if_pos hxid]
        have hf1 : (a_upd.expense_id == e.id) = false := by
          rw [hexpu]
          exact beq_eq_false_iff_ne.mpr (fun hh => heq hh.symm)
        have hf2 : (x.expense_id == e.id) = false := by
          rw [hxa]
          exact beq_eq_false_iff_ne.mpr (fun hh => heq hh.symm)
        simp [hf1, hf2]
      · rw [if_neg hxid]
    have h1 := filter_map_congr_length db.approvals
      (fun x => if x.id = a_upd.id then a_upd else x)
      (fun x => x.expense_id == e.id && x.status == "Pending") hq
    have h2 : ([newA].filter (fun x => x.expense_id == e.id && x.status == "Pending")) = [] := by
      have hf : (newA.expense_id == e.id) = false := by
        rw [hnexp]
        exact beq_eq_false_iff_ne.mpr (fun hh => heq hh.symm)
      simp [hf]
    unfold updateApprovalRow
    rw [h1, h2]
    simpa using hcount

theorem invariantHolds_decide_terminal
    (db : DB) (w : WF db) (hinv : invariantHolds db)
    (a a_upd : ExpenseApproval) (stv : String)
    (ha : a ∈ db.approvals)
    (hidu : a_upd.id = a.id) (hexpu : a_upd.expense_id = a.expense_id)
    (hstv : stv ≠ "Pending") :
    invariantHolds { db with
      approvals := updateApprovalRow db.approvals a_upd
      expenses := setExpenseStatus db.expenses a.expense_id stv } := by
  intro e he hst
  have he' : e ∈ setExpenseStatus db.expenses a.expense_id stv := he
  obtain ⟨e0, he0, hmap⟩ := List.mem_map.mp he'
  by_cases h0 : e0.id = a.expense_id
  · rw [if_pos h0] at hmap
    exfalso
    apply hstv
    rw [← hmap] at hst
    simpa using hst
  · rw [if_neg h0] at hmap
    subst hmap
    have hcount := hinv e0 he0 hst
    show ((updateApprovalRow db.approvals a_upd).filter
      (fun x => x.expense_id == e0.id && x.status == "Pending")).length = 1
    have hq : ∀ x ∈ db.approvals,
        ((fun x => x.expense_id == e0.id && x.status == "Pending")
          (if x.id = a_upd.id then a_upd else x)) =
        (x.expense_id == e0.id && x.status == "Pending") := by
      intro x hx
      by_cases hxid : x.id = a_upd.id
      · have hxa : x = a := nodup_key_inj w.approvals_nodup hx ha (by rw [← hidu]; exact hxid)
        rw [if_pos hxid]
        have hf1 : (a_upd.expense_id == e0.id) = false := by
          rw [hexpu]
          exact beq_eq_false_iff_ne.mpr (fun hh => h0 hh.symm)
        have hf2 : (x.expense_id == e0.id) = false := by
          rw [hxa]
          exact beq_eq_false_iff_ne.mpr (fun hh => h0 hh.symm)
        simp [hf1, hf2]
      · rw [if_neg hxid]
    have h1 := filter_map_congr_length db.approvals
      (fun x => if x.id = a_upd.id then a_upd else x)
      (fun x => x.expense_id == e0.id && x.status == "Pending") hq
    unfold updateApprovalRow
    rw [h1]
    exact hcount

theorem invariantHolds_submit_commit
    (db : DB) (w : WF db) (hinv : invariantHolds db)
    (newE : Expense) (newA : ExpenseApproval) (nid : Nat)
    (hEid : newE.id = db.nextId) (hEst : newE.status = "Pending")
    (hAexp : newA.expense_id = db.nextId) (hApend : newA.status = "Pending") :
    invariantHolds { db with
      expenses := db.expenses ++ [newE]
      approvals := db.approvals ++ [newA]
      nextId := nid } := by
  intro e he hst
  have he' : e ∈ db.expenses ++ [newE] := he
  rw [List.mem_append] at he'
  show ((db.approvals ++ [newA]).filter
    (fun x => x.expense_id == e.id && x.status == "Pending")).length = 1
  rw [List.filter_append, List.length_append]
  cases he' with
  | inl hmem =>
    have hlt := w.expenses_lt e hmem
    have hf : (newA.expense_id == e.id) = false := by
      rw [hAexp]
      exact beq_eq_false_iff_ne.mpr (Nat.ne_of_gt hlt)
    have h2 : ([newA].filter (fun x => x.expense_id == e.id && x.status == "Pending")) = [] := by
      simp [hf]
    rw [h2]
    simpa using hinv e hmem hst
  | inr hsing =>
    have he2 : e = newE := by simpa using hsing
    have hEid2 : e.id = db.nextId := by rw [he2]; exact hEid
    have h1 : (db.approvals.filter
        (fun x => x.expense_id == e.id && x.status == "Pending")) = [] := by
      rw [List.filter_eq_nil_iff]
      intro x hx
      obtain ⟨e0, he0, heq0⟩ := w.approvals_exp_fk x hx
      have hxlt : x.expense_id < db.nextId := heq0 ▸ w.expenses_lt e0 he0
      have hf : (x.expense_id == e.id) = false := by
        rw [hEid2]
        exact beq_eq_false_iff_ne.mpr (Nat.ne_of_lt hxlt)
      simp [hf]
    have h2 : ([newA].filter (fun x => x.expense_id == e.id && x.status == "Pending")) =
        [newA] := by
      have ht : (newA.expense_id == e.id) = true := by
        rw [hAexp, hEid2]
        simp
      simp [ht, hApend]
    rw [h1, h2]
    rfl

/-- C1 (amended): the at-most-one-active-step invariant — while an
expense is `Pending`, exactly one of its approval rows is `Pending` — is
established by expense submission (including every one of its error
paths, which leave the store untouched) and preserved by every approve
and every reject decision taken on an approval row that is still
`Pending`.  (As stated over all decisions it fails: the code accepts
decisions on already-terminal rows and those can break the invariant —
see the counterexample.) -/
theorem C1_invariant_established_and_preserved
    (db : DB) (w : WF db) (hinv : invariantHolds db) :
    (∀ uid category amount currency description expense_date now,
      invariantHolds
        (submit_expense db uid category amount currency description expense_date now).1) ∧
    (∀ uid aid c u a st r,
      findUser db uid = some u → findApproval db aid = some a →
      a.status = "Pending" → findStep db a.step_id = some st →
      u.role = st.approver_role → findRule db st.rule_id = some r →
      invariantHolds (approve_expense db uid aid c).1) ∧
    (∀ uid aid c u a st,
      findUser db uid = some u → findApproval db aid = some a →
      a.status = "Pending" → findStep db a.step_id = some st →
      u.role = st.approver_role →
      invariantHolds (reject_expense db uid aid c).1) := by
  refine ⟨?_, ?_, ?_⟩
  · intro uid category amount currency description expense_date now
    cases hU : findUser db uid with
    | none => simpa [submit_expense, hU] using hinv
    | some employee =>
      by_cases hval : category = "" ∨ amount = 0
      · simpa [submit_expense, hU, hval] using hinv
      · cases hC : findCompany db employee.company_id with
        | none => simpa [submit_expense, hU, hval, hC] using hinv
        | some company =>
          cases hRu : (db.rules.filter (fun r => r.company_id == employee.company_id)).head? with
          | none => simpa [submit_expense, hU, hval, hC, hRu] using hinv
          | some rule =>
            cases hFs : (ruleSteps db rule.id).head? with
            | none => simpa [submit_expense, hU, hval, hC, hRu, hFs] using hinv
            | some first_step =>
              simp only [submit_expense, hU, hval, hC, hRu, hFs]
              exact invariantHolds_submit_commit db w hinv _ _ _ rfl rfl rfl rfl
  · intro uid aid c u a st r hU hA hPend hS hRole hR
    have hamem : a ∈ db.approvals := List.mem_of_find?_eq_some hA
    cases hns : (db.steps.filter (fun s =>
        s.rule_id == r.id && s.step_number == st.step_number + 1)).head? with
    | some ns =>
      have hred := approve_reduces_next db uid aid c u a st r ns hU hA hS hRole hR hns
      rw [hred]
      refine invariantHolds_update_append db w hinv a _ _ _ hamem hPend rfl rfl ?_ rfl rfl
      rfl
    | none =>
      have hred := approve_reduces_last db uid aid c u a st r hU hA hS hRole hR hns
      rw [hred]
      exact invariantHolds_decide_terminal db w hinv a _ "Approved" hamem rfl rfl (by decide)
  · intro uid aid c u a st hU hA hPend hS hRole
    have hred := reject_reduces db uid aid c u a st hU hA hS hRole
    rw [hred]
    exact invariantHolds_decide_terminal db w hinv a _ "Rejected"
      (List.mem_of_find?_eq_some hA) rfl rfl (by decide)

theorem C1_witness :
    invariantHolds (submit_expense dbOne 5 "Food" 50 none none 21 31).1 ∧
    invariantHolds (approve_expense dbOne 3 10 none).1 ∧
    invariantHolds (reject_expense dbOne 3 10 none).1 := by
  have h := C1_invariant_established_and_preserved dbOne
    (by constructor <;> decide) (by decide)
  exact ⟨h.1 5 "Food" 50 none none 21 31,
    h.2.1 3 10 none ⟨3, "mgr", "Manager", 1, none⟩ ⟨10, 9, 7, none, "Pending", none⟩
      ⟨7, 6, 1, "Manager", false⟩ ⟨6, 1, "Default flow", none⟩
      (by decide) (by decide) (by decide) (by decide) (by decide) (by decide),
    h.2.2 3 10 none ⟨3, "mgr", "Manager", 1, none⟩ ⟨10, 9, 7, none, "Pending", none⟩
      ⟨7, 6, 1, "Manager", false⟩
      (by decide) (by decide) (by decide) (by decide) (by decide)⟩

/-- C6: submitting an expense when the employee's company has no
workflow definition, or when its first definition has zero steps, fails
with the ConfigurationError response (HTTP 500, "No approval workflow is
configured for this company") and persists nothing — the returned store
is exactly the one before the call, so no Expense and no ApprovalInstance
row is committed. -/
theorem C6_no_workflow_submit_atomic
    (db : DB) (uid : Nat) (category : String) (amount : Int)
    (currency : Option String) (description : Option String)
    (expense_date : Nat) (now : Nat) (employee : Users)
    (hU : findUser db uid = some employee)
    (hval : ¬(category = "" ∨ amount = 0))
    (hC : ∃ comp, findCompany db employee.company_id = some comp)
    (hcfg : (db.rules.filter (fun r => r.company_id == employee.company_id)).head? = none ∨
      ∃ rule, (db.rules.filter (fun r => r.company_id == employee.company_id)).head? =
          some rule ∧ db.steps.filter (fun s => s.rule_id == rule.id) = []) :
    submit_expense db uid category amount currency description expense_date now =
      (db, .error (.http 500 "No approval workflow is configured for this company")) := by
  obtain ⟨comp, hC⟩ := hC
  cases hcfg with
  | inl h => simp [submit_expense, hU, hval, hC, h]
  | inr h =>
    obtain ⟨rule, hr, hsteps⟩ := h
    have hrs : (ruleSteps db rule.id).head? = none := by
      unfold ruleSteps
      rw [hsteps]
      rfl
    simp [submit_expense, hU, hval, hC, hr, hrs]

theorem C6_witness :
    submit_expense dbNoRule 5 "Food" 50 none none 21 31 =
      (dbNoRule, .error (.http 500 "No approval workflow is configured for this company")) :=
  C6_no_workflow_submit_atomic dbNoRule 5 "Food" 50 none none 21 31
    ⟨5, "emp", "Employee", 1, none⟩ (by decide) (by decide)
    ⟨⟨1, "Acme", "USD"⟩, by decide⟩ (Or.inl (by decide))

/-- C7 (amended): createDefinition with an empty steps list fails with
the 400 ValidationError response ("Missing rule name or steps") and
persists nothing; with a duplicated stepNumber it also persists nothing,
but the failure is the database unique-constraint violation
(IntegrityError raised at commit by models.py line 84), not a
ValidationError response. -/
theorem C7_create_rule_empty_or_duplicate
    (db : DB) (uid : Nat) (name : String) (descr : Option String)
    (steps_data : List (Nat × String)) (admin : Users)
    (hU : findUser db uid = some admin)
    (hAdm : admin.role = "Admin") :
    (steps_data = [] →
      create_approval_rule db uid name descr steps_data =
        (db, .error (.http 400 "Missing rule name or steps"))) ∧
    (name ≠ "" → ¬ (steps_data.map Prod.fst).Nodup →
      create_approval_rule db uid name descr steps_data =
        (db, .error .integrityError)) := by
  constructor
  · intro h
    subst h
    simp [create_approval_rule, hU, hAdm]
  · intro hname hdup
    have hne : steps_data ≠ [] := by
      intro h
      exact hdup (by rw [h]; exact List.nodup_nil)
    have hval : ¬(name = "" ∨ steps_data.isEmpty = true) := by
      simp [hname, List.isEmpty_iff, hne]
    have hcond : ¬ ((db.steps ++ steps_data.enum.map (fun p =>
        ({ id := db.nextId + 1 + p.1, rule_id := db.nextId, step_number := p.2.1,
           approver_role := p.2.2, is_manager_approver := false } : ApprovalStep))).map
        (fun s => (s.rule_id, s.step_number))).Nodup := by
      intro hc
      apply hdup
      rw [List.map_append] at hc
      have h2 := (List.nodup_append.mp hc).2.1
      rw [List.map_map] at h2
      have h2' : (steps_data.enum.map
          (fun p => ((db.nextId, p.2.1) : Nat × Nat))).Nodup := h2
      have h3 : steps_data.enum.map (fun p => ((db.nextId, p.2.1) : Nat × Nat)) =
          (steps_data.map Prod.fst).map (fun n => (db.nextId, n)) := by
        rw [List.map_map]
        conv_rhs => rw [← List.enum_map_snd steps_data]
        rw [List.map_map]
        rfl
      rw [h3] at h2'
      exact h2'.of_map _
    have hval2 : ¬(name = "" ∨ steps_data = []) := by
      simp [hname, hne]
    have hcond2 : ¬ (db.steps.map (fun s => (s.rule_id, s.step_number)) ++
        steps_data.enum.map ((fun s : ApprovalStep => (s.rule_id, s.step_number)) ∘
          (fun p => (⟨db.nextId + 1 + p.1, db.nextId, p.2.1, p.2.2, false⟩ :
            ApprovalStep)))).Nodup := by
      rw [← List.map_map, ← List.map_append]
      exact hcond
    simp [create_approval_rule, hU, hAdm, hval2, hcond2]

theorem C7_witness :
    create_approval_rule dbOne 2 "Flow" none [] =
      (dbOne, .error (.http 400 "Missing rule name or steps")) ∧
    create_approval_rule dbOne 2 "Flow" none [(1, "Manager"), (1, "Finance")] =
      (dbOne, .error .integrityError) := by
  have h1 := (C7_create_rule_empty_or_duplicate dbOne 2 "Flow" none []
    ⟨2, "admin", "Admin", 1, none⟩ (by decide) rfl).1 rfl
  have h2 := (C7_create_rule_empty_or_duplicate dbOne 2 "Flow" none
    [(1, "Manager"), (1, "Finance")]
    ⟨2, "admin", "Admin", 1, none⟩ (by decide) rfl).2 (by decide) (by decide)
  exact ⟨h1, h2⟩

/-- C7 counterexample: an admin submits a definition whose two steps
share stepNumber 1.  Nothing is persisted, but the failure is the
database IntegrityError — not any HTTP response, in particular not the
400 ValidationError the claim requires for duplicate step numbers. -/
theorem C7_counterexample :
    (create_approval_rule dbOne 2 "Duplicated" none [(1, "Manager"), (1, "Finance")]).1 =
      dbOne ∧
    (create_approval_rule dbOne 2 "Duplicated" none [(1, "Manager"), (1, "Finance")]).2 =
      .error .integrityError ∧
    ¬ ∃ code msg, (create_approval_rule dbOne 2 "Duplicated" none
      [(1, "Manager"), (1, "Finance")]).2 = .error (.http code msg) := by
  have hres : (create_approval_rule dbOne 2 "Duplicated" none
      [(1, "Manager"), (1, "Finance")]).2 = .error .integrityError := by decide
  refine ⟨by decide, hres, ?_⟩
  rintro ⟨code, msg, h⟩
  rw [hres] at h
  exact ApiErr.noConfusion (Except.error.inj h)

/-- C8 (amended): every successful submission creates exactly one new
`Pending` approval row, whose step belongs to the company's first
definition and has the minimal step_number among its steps — the step is
selected through the step_number ordering of the steps relationship, not
through insertion order.  When a step numbered 1 exists this is step 1;
the claim's unconditional "stepNumber = 1" fails for definitions whose
numbering does not start at 1 (see the counterexample). -/
theorem C8_initial_instance_at_minimal_step
    (db : DB) (uid : Nat) (category : String) (amount : Int)
    (currency : Option String) (description : Option String)
    (expense_date : Nat) (now : Nat)
    (employee : Users) (comp : Company) (rule : ApprovalRule)
    (hU : findUser db uid = some employee)
    (hval : ¬(category = "" ∨ amount = 0))
    (hC : findCompany db employee.company_id = some comp)
    (hr : (db.rules.filter (fun r => r.company_id == employee.company_id)).head? = some rule)
    (hne : db.steps.filter (fun s => s.rule_id == rule.id) ≠ []) :
    ∃ fs : ApprovalStep,
      (submit_expense db uid category amount currency description expense_date now).2 =
        .ok () ∧
      ((submit_expense db uid category amount currency description expense_date now).1).approvals
        = db.approvals ++ [⟨db.nextId + 1, db.nextId, fs.id, none, "Pending", none⟩] ∧
      fs ∈ db.steps ∧ fs.rule_id = rule.id ∧
      (∀ t ∈ db.steps, t.rule_id = rule.id → fs.step_number ≤ t.step_number) := by
  cases hh : ruleSteps db rule.id with
  | nil =>
    exfalso
    apply hne
    have hperm := List.perm_insertionSort stepLE
      (db.steps.filter (fun s => s.rule_id == rule.id))
    rw [show List.insertionSort stepLE (db.steps.filter (fun s => s.rule_id == rule.id)) =
        ruleSteps db rule.id from rfl, hh] at hperm
    exact hperm.symm.eq_nil
  | cons fs rest =>
    have hhead : (ruleSteps db rule.id).head? = some fs := by rw [hh]; rfl
    have hred : submit_expense db uid category amount currency description expense_date now =
        ({ db with
            expenses := db.expenses ++ [⟨db.nextId, employee.id, category, amount,
              currency.getD comp.default_currency, description, expense_date,
              "Pending", now⟩]
            approvals := db.approvals ++ [⟨db.nextId + 1, db.nextId, fs.id, none,
              "Pending", none⟩]
            nextId := db.nextId + 2 }, .ok ()) := by
      simp [submit_expense, hU, hval, hC, hr, hhead]
    have hfs_sort : fs ∈ ruleSteps db rule.id := by rw [hh]; exact List.mem_cons_self fs rest
    have hfs_filter : fs ∈ db.steps.filter (fun s => s.rule_id == rule.id) :=
      ((List.perm_insertionSort stepLE _).mem_iff).mp hfs_sort
    have hfs_mem : fs ∈ db.steps := (List.mem_filter.mp hfs_filter).1
    have hfs_rid : fs.rule_id = rule.id := by
      have := (List.mem_filter.mp hfs_filter).2
      simpa using this
    refine ⟨fs, by rw [hred], by rw [hred], hfs_mem, hfs_rid, ?_⟩
    intro t ht htr
    have htf : t ∈ db.steps.filter (fun s => s.rule_id == rule.id) :=
      List.mem_filter.mpr ⟨ht, by simp [htr]⟩
    have hts : t ∈ ruleSteps db rule.id :=
      ((List.perm_insertionSort stepLE _).mem_iff).mpr htf
    rw [hh] at hts
    have hsorted : List.Sorted stepLE (ruleSteps db rule.id) :=
      List.sorted_insertionSort stepLE _
    rw [hh] at hsorted
    rcases List.mem_cons.mp hts with h | h
    · rw [h]
    · exact List.rel_of_sorted_cons hsorted t h

theorem C8_witness :
    ∃ fs : ApprovalStep,
      (submit_expense dbOne 5 "Food" 50 none none 21 31).2 = .ok () ∧
      ((submit_expense dbOne 5 "Food" 50 none none 21 31).1).approvals =
        dbOne.approvals ++ [⟨12, 11, fs.id, none, "Pending", none⟩] ∧
      fs ∈ dbOne.steps ∧ fs.rule_id = 6 ∧
      (∀ t ∈ dbOne.steps, t.rule_id = 6 → fs.step_number ≤ t.step_number) :=
  C8_initial_instance_at_minimal_step dbOne 5 "Food" 50 none none 21 31
    ⟨5, "emp", "Employee", 1, some 3⟩ ⟨1, "Acme", "USD"⟩ ⟨6, 1, "Default flow", none⟩
    (by decide) (by decide) (by decide) (by decide) (by decide)

/-- C8 counterexample: in `dbGap` the company's only definition has a
single step numbered 2 (numbering not starting at 1).  Submission
succeeds, and the one approval row it creates points at a step whose
step_number is not 1, refuting the claim's unconditional
"stepNumber = 1". -/
theorem C8_counterexample :
    (submit_expense dbGap 5 "Food" 100 none none 20 30).2 = .ok () ∧
    ¬ (∀ a ∈ ((submit_expense dbGap 5 "Food" 100 none none 20 30).1).approvals,
        ((findStep dbGap a.step_id).map (fun s => s.step_number)) = some 1) := by
  refine ⟨by decide, by decide⟩

/-- C9: the my-history endpoint's rows are ordered newest-first by
creation time; every expense of the requesting employee contributes its
row; and the display status is derived as the claim states: while the
expense is `Pending` and it has exactly one `Pending` approval row whose
step resolves, the status reads "Pending <approverRole> Approval", and a
non-`Pending` expense shows its raw status. -/
theorem C9_history_newest_first_and_display (db : DB) (uid : Nat) :
    ((get_my_expense_history db uid).Pairwise
      (fun r1 r2 => r2.submitted_at ≤ r1.submitted_at)) ∧
    (∀ e ∈ db.expenses, e.employee_id = uid →
      ({ expense_id := e.id, category := e.category, amount := e.amount,
         currency := e.currency, status := statusDisplay db e,
         submitted_at := e.created_at } : HistoryRow) ∈ get_my_expense_history db uid) ∧
    (∀ e pa s, e.status = "Pending" → pendingFor db e.id = [pa] →
      findStep db pa.step_id = some s →
      statusDisplay db e = "Pending " ++ s.approver_role ++ " Approval") ∧
    (∀ e : Expense, e.status ≠ "Pending" → statusDisplay db e = e.status) := by
  refine ⟨?_, ?_, ?_, ?_⟩
  · unfold get_my_expense_history
    rw [List.pairwise_map]
    exact List.sorted_insertionSort newestFirst _
  · intro e he heq
    have hf : e ∈ db.expenses.filter (fun e => e.employee_id == uid) :=
      List.mem_filter.mpr ⟨he, by simp [heq]⟩
    have hs : e ∈ List.insertionSort newestFirst
        (db.expenses.filter (fun e => e.employee_id == uid)) :=
      ((List.perm_insertionSort newestFirst _).mem_iff).mpr hf
    exact List.mem_map_of_mem _ hs
  · intro e pa s h1 h2 h3
    have hh : (pendingFor db e.id).head? = some pa := by rw [h2]; rfl
    simp [statusDisplay, h1, hh, h3]
  · intro e hne
    simp [statusDisplay, hne]

theorem C9_witness :
    ((get_my_expense_history dbTwo 5).Pairwise
      (fun r1 r2 => r2.submitted_at ≤ r1.submitted_at)) ∧
    ({ expense_id := 9, category := "Travel", amount := 100, currency := "USD",
       status := statusDisplay dbTwo ⟨9, 5, "Travel", 100, "USD", none, 20, "Pending", 30⟩,
       submitted_at := 30 } : HistoryRow) ∈ get_my_expense_history dbTwo 5 ∧
    statusDisplay dbTwo ⟨9, 5, "Travel", 100, "USD", none, 20, "Pending", 30⟩ =
      "Pending " ++ "Finance" ++ " Approval" := by
  have h := C9_history_newest_first_and_display dbTwo 5
  exact ⟨h.1,
    h.2.1 ⟨9, 5, "Travel", 100, "USD", none, 20, "Pending", 30⟩ (by decide) (by decide),
    h.2.2.1 ⟨9, 5, "Travel", 100, "USD", none, 20, "Pending", 30⟩
      ⟨11, 9, 8, none, "Pending", none⟩ ⟨8, 6, 2, "Finance", false⟩
      (by decide) (by decide) (by decide)⟩

/-- C10: the pending-approvals inbox returns exactly the approval rows
whose status is `Pending` and whose step's approver_role equals the
requesting user's role — the filter carries no company condition, so a
matching pending row of another company's expense is returned as well. -/
theorem C10_inbox_is_role_filter_without_company
    (db : DB) (uid : Nat) (u : Users) (hU : findUser db uid = some u) :
    (∀ a ∈ db.approvals,
      (a ∈ pending_approvals_query db u.role ↔
        a.status = "Pending" ∧
        ∃ s, findStep db a.step_id = some s ∧ s.approver_role = u.role)) ∧
    (get_pending_approvals db uid).map (fun r => r.approval_id) =
      (pending_approvals_query db u.role).map (fun a => a.id) := by
  constructor
  · intro a ha
    constructor
    · intro hmem
      have hp := (List.mem_filter.mp hmem).2
      cases hfs : findStep db a.step_id with
      | none =>
        rw [hfs] at hp
        simp at hp
      | some s =>
        rw [hfs] at hp
        simp only [Bool.and_eq_true, beq_iff_eq] at hp
        exact ⟨hp.1, s, rfl, hp.2⟩
    · rintro ⟨hst, s, hfs, hrole⟩
      refine List.mem_filter.mpr ⟨ha, ?_⟩
      show (a.status == "Pending" &&
        (match findStep db a.step_id with
         | some s => s.approver_role == u.role
         | none => false)) = true
      rw [hfs]
      simp [hst, hrole]
  · simp only [get_pending_approvals, hU]
    rw [List.map_map]
    rfl

theorem C10_witness :
    (⟨10, 9, 7, none, "Pending", none⟩ : ExpenseApproval) ∈
      pending_approvals_query dbCross "Manager" ∧
    (get_pending_approvals dbCross 3).map (fun r => r.approval_id) =
      (pending_approvals_query dbCross "Manager").map (fun a => a.id) ∧
    (findUser dbCross 3).map (fun u => u.company_id) = some 1 ∧
    (∀ e ∈ dbCross.expenses, ∀ emp ∈ dbCross.users,
      emp.id = e.employee_id → emp.company_id = 2) := by
  have h := C10_inbox_is_role_filter_without_company dbCross 3
    ⟨3, "mgr", "Manager", 1, none⟩ (by decide)
  refine ⟨?_, h.2, by decide, by decide⟩
  exact (h.1 ⟨10, 9, 7, none, "Pending", none⟩ (by decide)).mpr
    ⟨rfl, ⟨7, 6, 1, "Manager", false⟩, by decide, rfl⟩
